import Mathlib

/-!
Verification development for the resolver offload engine in
src/src/cc/kfsio/Resolver.cc (class Resolver::Impl).

The development has two parts:
1. a pure model of the per-request resolution procedure
   (Resolver::Impl::Process, lines 160-205), parameterised over the
   resolution backend (getaddrinfo / getnameinfo / gai_strerror);
2. a sequential-consistency model of the facade state machine and the
   worker / dispatcher queue discipline (Start, Enqueue, Shutdown, Run,
   Timeout), where each critical section of the C++ code becomes one
   atomic transition of a labelled transition system.
-/

namespace Resolver

/-! Platform constants used by the code (Linux values). -/

def EINVAL : Int := 22

def AF_INET : Nat := 2

def AF_INET6 : Nat := 10

def INET_ADDRSTRLEN : Nat := 16

def INET6_ADDRSTRLEN : Nat := 46

/-- Size of the mNameBuf member, from its declaration at Resolver.cc lines
157-158: (INET_ADDRSTRLEN < INET6_ADDRSTRLEN ? INET6_ADDRSTRLEN :
INET_ADDRSTRLEN) + 1. -/
def nameBufSize : Nat :=
  (if INET_ADDRSTRLEN < INET6_ADDRSTRLEN then INET6_ADDRSTRLEN else INET_ADDRSTRLEN) + 1

/-- Buffer size passed to getnameinfo for one entry, from Resolver.cc lines
187-188: thePtr->ai_family == AF_INET ? INET6_ADDRSTRLEN : INET6_ADDRSTRLEN
(both arms of the conditional are INET6_ADDRSTRLEN in the source). -/
def theSize (family : Nat) : Nat :=
  if family = AF_INET then INET6_ADDRSTRLEN else INET6_ADDRSTRLEN

/-! Model of the resolution procedure Resolver::Impl::Process. -/

/-- One addrinfo entry returned by the backend: its ai_family tag plus the
abstract address payload that getnameinfo formats. -/
structure AddrEntry where
  family : Nat
  payload : String

/-- Result of a getaddrinfo call: the returned status, and the result
handle (theResPtr), which when non-null owns a list of entries. The code
checks the handle for null independently of the status. -/
structure LookupResult where
  status : Int
  res : Option (List AddrEntry)

/-- The resolution backend consumed by the worker: name lookup
(getaddrinfo), numeric formatting of one entry (getnameinfo, returning a
status and the text written into the name buffer), and error-code
description (gai_strerror). -/
structure Backend where
  lookup : String → LookupResult
  fmt : AddrEntry → Int × String
  strerror : Int → String

/-- The caller-owned request record: Resolver::Request fields mHostName,
mIpAddresses, mStatus, mStatusMsg. -/
structure Request where
  mHostName : String
  mIpAddresses : List String
  mStatus : Int
  mStatusMsg : String

/-- Observable outcome of one Process call: the updated request, plus a
ghost flag recording whether freeaddrinfo was invoked on a present result
handle. -/
structure ProcessResult where
  req : Request
  freed : Bool

/-- One iteration of the formatting loop body (Resolver.cc lines 181-199):
skip entries whose family is neither AF_INET nor AF_INET6; on a getnameinfo
failure record the status in theErr and continue; on success append the
formatted text. The accumulator is (mIpAddresses so far, theErr). -/
def formatStep (b : Backend) (acc : List String × Int) (e : AddrEntry) :
    List String × Int :=
  if e.family ≠ AF_INET ∧ e.family ≠ AF_INET6 then acc
  else if (b.fmt e).1 ≠ 0 then (acc.1, (b.fmt e).1)
  else (acc.1 ++ [(b.fmt e).2], acc.2)

/-- The whole formatting loop over the entries returned by a successful
lookup, started from empty addresses and theErr = 0 (Resolver.cc lines
180-199). -/
def formatLoop (b : Backend) (es : List AddrEntry) : List String × Int :=
  es.foldl (formatStep b) ([], 0)

/-- Model of Resolver::Impl::Process (Resolver.cc lines 160-205): run the
backend lookup, clear the address list, and either record the lookup
failure or run the formatting loop and apply the empty-addresses error
policy. -/
def processReq (b : Backend) (inReq : Request) : ProcessResult :=
  let lr := b.lookup inReq.mHostName
  let r1 : Request := { inReq with mStatus := lr.status, mIpAddresses := [] }
  if lr.status ≠ 0 then
    { req := { r1 with mStatusMsg := b.strerror lr.status },
      freed := lr.res.isSome }
  else
    let entries := lr.res.getD []
    let fr := formatLoop b entries
    let r2 : Request := { r1 with mStatusMsg := "", mIpAddresses := fr.1 }
    if fr.1 = [] ∧ fr.2 ≠ 0 then
      { req := { r2 with mStatus := fr.2, mStatusMsg := b.strerror fr.2 },
        freed := true }
    else
      { req := r2, freed := true }

/-! Specification-level description of the formatting loop, used to state
the partial-failure policy: the successfully formatted texts, and the
statuses of the failed formatting calls, both restricted to entries whose
family is IPv4 or IPv6, in entry order. -/

/-- Texts of the entries that format successfully, in order. -/
def fmtOks (b : Backend) (es : List AddrEntry) : List String :=
  es.filterMap fun e =>
    if e.family ≠ AF_INET ∧ e.family ≠ AF_INET6 then none
    else if (b.fmt e).1 ≠ 0 then none
    else some (b.fmt e).2

/-- Statuses of the formatting calls that fail, in order. -/
def fmtErrors (b : Backend) (es : List AddrEntry) : List Int :=
  es.filterMap fun e =>
    if e.family ≠ AF_INET ∧ e.family ≠ AF_INET6 then none
    else if (b.fmt e).1 ≠ 0 then some (b.fmt e).1
    else none

/-!
Sequential-consistency model of the facade state machine (Resolver::Impl,
lines 62-141). Requests are identified by natural numbers. Every critical
section of the C++ code (a region executed with mMutex held, together
with the lock-free work that inevitably follows it on the same thread
before the next lock acquisition) becomes one atomic transition. The
fields resolved, delivered and accepted are ghost histories: resolved
records the order in which Process is invoked, delivered the order in
which Request::Done callbacks fire, accepted the order in which Enqueue
accepts requests.
-/

/-- Modelled from the spec: the one-item push-back of the intrusive
SingleLinkedQueue (common/SingleLinkedQueue.h, not under src/); spec
section 3 describes it as O(1) append at the tail. -/
@[simp] def queuePushBack (q : List Nat) (id : Nat) : List Nat := q ++ [id]

/-- Modelled from the spec: the whole-queue splice of the intrusive
SingleLinkedQueue (common/SingleLinkedQueue.h, not under src/); spec
section 3 describes it as moving the entire source queue onto the tail of
the destination in O(1), emptying the source. -/
@[simp] def queueSplice (dst src : List Nat) : List Nat := dst ++ src

structure ResolverState where
  runFlag : Bool
  registered : Bool
  pending : List Nat
  doneQueue : List Nat
  doneCount : Nat
  resolved : List Nat
  delivered : List Nat
  accepted : List Nat

/-- State of a freshly constructed Impl: mRunFlag false, mDoneCount 0,
 queues empty, no timeout handler registered. -/
def initState : ResolverState :=
  { runFlag := false, registered := false, pending := [], doneQueue := [],
    doneCount := 0, resolved := [], delivered := [], accepted := [] }

/-- Model of Resolver::Impl::Start (lines 62-72): fail with -EINVAL while
running, otherwise set the run flag, register the timeout handler with the
net manager and launch the worker thread. -/
def startOp (s : ResolverState) : ResolverState × Int :=
  if s.runFlag then (s, -EINVAL)
  else ({ s with runFlag := true, registered := true }, 0)

/-- Outcome of one Enqueue call: the new state, the returned status, and
whether mCondVar.Notify was invoked. -/
structure EnqueueOutcome where
  state : ResolverState
  ret : Int
  signaled : Bool

/-- Model of Resolver::Impl::Enqueue (lines 85-98): under the lock, fail
with -EINVAL when not running; otherwise push the request onto the back of
the pending queue and notify the worker exactly when the queue was empty
before the push. -/
def enqueueOp (s : ResolverState) (id : Nat) : EnqueueOutcome :=
  if s.runFlag then
    { state := { s with
        pending := queuePushBack s.pending id,
        accepted := s.accepted ++ [id] },
      ret := 0,
      signaled := s.pending.isEmpty }
  else
    { state := s, ret := -EINVAL, signaled := false }

/-- Outcome of one worker-loop iteration: the new state and whether
mNetManager.Wakeup was invoked. -/
structure WorkerOutcome where
  state : ResolverState
  wakeup : Bool

/-- Model of one iteration of Resolver::Impl::Run (lines 121-136): splice
the whole pending queue into a local batch, process each request in batch
order outside the lock, then re-acquire the lock, splice the batch onto
the done queue, and when the batch is non-empty and the done queue was
empty beforehand, increment mDoneCount and wake the net manager. -/
def workerStep (s : ResolverState) : WorkerOutcome :=
  let batch := s.pending
  let wakeFlag := !batch.isEmpty && s.doneQueue.isEmpty
  { state := { s with
      pending := [],
      resolved := s.resolved ++ batch,
      doneQueue := queueSplice s.doneQueue batch,
      doneCount := if wakeFlag then s.doneCount + 1 else s.doneCount },
    wakeup := wakeFlag }

/-- Model of Resolver::Impl::Timeout (lines 99-113), run by the net
manager on the event-loop thread: return at once when mDoneCount is zero;
otherwise splice the done queue into a local queue, reset mDoneCount, and
invoke Done on each spliced request in order outside the lock. -/
def timeoutOp (s : ResolverState) : ResolverState :=
  if s.doneCount = 0 then s
  else { s with
    doneQueue := [],
    doneCount := 0,
    delivered := s.delivered ++ s.doneQueue }

/-- Model of Resolver::Impl::Shutdown (lines 73-84): a no-op when not
running; otherwise clear the run flag, notify the worker, join the worker
thread (which, seeing the cleared flag, performs its final iteration and
exits once the pending queue is empty), then unregister the timeout
handler. -/
def shutdownOp (s : ResolverState) : ResolverState :=
  if s.runFlag then
    { (workerStep { s with runFlag := false }).state with registered := false }
  else s

/-- Events of the labelled transition system: the facade calls, one worker
iteration, and one net-manager timeout tick. -/
inductive Action where
  | start : Action
  | enqueue : Nat → Action
  | worker : Action
  | timeout : Action
  | shutdown : Action

/-- One transition. The worker transition has no effect while the worker
is blocked in mCondVar.Wait (run flag set and pending queue empty), and
the timeout transition has no effect while the handler is not registered
with the net manager. -/
def step (s : ResolverState) : Action → ResolverState
  | Action.start => (startOp s).1
  | Action.enqueue id => (enqueueOp s id).state
  | Action.worker =>
      if s.runFlag && s.pending.isEmpty then s else (workerStep s).state
  | Action.timeout => if s.registered then timeoutOp s else s
  | Action.shutdown => shutdownOp s

/-- Run a list of transitions from a state. -/
def runActions (s : ResolverState) (as : List Action) : ResolverState :=
  as.foldl step s

/-- Queue-accounting invariant of every reachable state: the accepted
history splits into the delivered history, the done queue and the pending
queue, in that order, and a non-empty done queue is always announced by a
non-zero mDoneCount. -/
def InvQ (s : ResolverState) : Prop :=
  s.accepted = s.delivered ++ s.doneQueue ++ s.pending ∧
  (s.doneQueue ≠ [] → s.doneCount ≠ 0)

/-- Full reachable-state invariant: queue accounting plus the fact that
the timeout handler is registered exactly while the facade is running. -/
def Inv (s : ResolverState) : Prop :=
  InvQ s ∧ s.registered = s.runFlag

/-- Backend whose name lookup always fails with a null result handle. -/
def failBackend : Backend :=
  { lookup := fun _ => { status := -2, res := none },
    fmt := fun _ => (0, ""),
    strerror := fun _ => "name or service not known" }

/-- Backend whose lookup returns one IPv4 entry whose formatting fails. -/
def fmtFailBackend : Backend :=
  { lookup := fun _ => { status := 0, res := some [{ family := 2, payload := "p" }] },
    fmt := fun _ => (-6, ""),
    strerror := fun _ => "format error" }

/-- A blank request used as concrete input in witnesses. -/
def reqX : Request :=
  { mHostName := "x", mIpAddresses := [], mStatus := 0, mStatusMsg := "" }

/-! Lemmas about the formatting loop. -/

theorem fmtOks_cons (b : Backend) (e : AddrEntry) (es : List AddrEntry) :
    fmtOks b (e :: es) =
      if e.family ≠ AF_INET ∧ e.family ≠ AF_INET6 then fmtOks b es
      else if (b.fmt e).1 ≠ 0 then fmtOks b es
      else (b.fmt e).2 :: fmtOks b es := by
  simp only [fmtOks, List.filterMap_cons]
  by_cases hf : e.family ≠ AF_INET ∧ e.family ≠ AF_INET6
  · rw [if_pos hf, if_pos hf]
  · rw [if_neg hf, if_neg hf]
    by_cases hs : (b.fmt e).1 ≠ 0
    · rw [if_pos hs, if_pos hs]
    · rw [if_neg hs, if_neg hs]

theorem fmtErrors_cons (b : Backend) (e : AddrEntry) (es : List AddrEntry) :
    fmtErrors b (e :: es) =
      if e.family ≠ AF_INET ∧ e.family ≠ AF_INET6 then fmtErrors b es
      else if (b.fmt e).1 ≠ 0 then (b.fmt e).1 :: fmtErrors b es
      else fmtErrors b es := by
  simp only [fmtErrors, List.filterMap_cons]
  by_cases hf : e.family ≠ AF_INET ∧ e.family ≠ AF_INET6
  · rw [if_pos hf, if_pos hf]
  · rw [if_neg hf, if_neg hf]
    by_cases hs : (b.fmt e).1 ≠ 0
    · rw [if_pos hs, if_pos hs]
    · rw [if_neg hs, if_neg hs]

theorem formatLoop_acc (b : Backend) (es : List AddrEntry) :
    ∀ a : List String, ∀ e0 : Int,
      es.foldl (formatStep b) (a, e0) =
        (a ++ fmtOks b es, (fmtErrors b es).getLastD e0) := by
  induction es with
  | nil => intro a e0; simp [fmtOks, fmtErrors]
  | cons e es ih =>
      intro a e0
      rw [List.foldl_cons, fmtOks_cons, fmtErrors_cons]
      by_cases hf : e.family ≠ AF_INET ∧ e.family ≠ AF_INET6
      · rw [if_pos hf, if_pos hf]
        simp only [formatStep, if_pos hf]
        exact ih a e0
      · rw [if_neg hf, if_neg hf]
        by_cases hs : (b.fmt e).1 ≠ 0
        · rw [if_pos hs, if_pos hs]
          simp only [formatStep, if_neg hf, if_pos hs]
          rw [ih a ((b.fmt e).1), List.getLastD_cons]
        · rw [if_neg hs, if_neg hs]
          simp only [formatStep, if_neg hf, if_neg hs]
          rw [ih (a ++ [(b.fmt e).2]) e0]
          simp

theorem formatLoop_eq (b : Backend) (es : List AddrEntry) :
    formatLoop b es = (fmtOks b es, (fmtErrors b es).getLastD 0) := by
  simpa [formatLoop] using formatLoop_acc b es [] 0

theorem fmtErrors_ne_zero (b : Backend) (es : List AddrEntry) :
    ∀ x ∈ fmtErrors b es, x ≠ 0 := by
  intro x hx
  simp only [fmtErrors, List.mem_filterMap] at hx
  obtain ⟨e, _, he⟩ := hx
  by_cases hf : e.family ≠ AF_INET ∧ e.family ≠ AF_INET6
  · simp [if_pos hf] at he
  · by_cases hs : (b.fmt e).1 ≠ 0
    · simp only [if_neg hf, if_pos hs, Option.some.injEq] at he
      simpa [he] using hs
    · simp [if_neg hf, if_neg hs] at he

theorem fmtErrors_getLastD_ne_zero (b : Backend) (es : List AddrEntry)
    (h : fmtErrors b es ≠ []) : (fmtErrors b es).getLastD 0 ≠ 0 := by
  have hmem : (fmtErrors b es).getLast h ∈ fmtErrors b es := List.getLast_mem h
  have := fmtErrors_ne_zero b es _ hmem
  rwa [List.getLastD_eq_getLast? , List.getLast?_eq_getLast _ h]

theorem fmtErrors_getLastD_iff (b : Backend) (es : List AddrEntry) :
    ((fmtErrors b es).getLastD 0 ≠ 0 ↔ fmtErrors b es ≠ []) := by
  constructor
  · intro h hnil
    rw [hnil] at h
    simp at h
  · exact fmtErrors_getLastD_ne_zero b es

/-! Characterisation of processReq, one observable field at a time. -/

theorem processReq_addr_eq (b : Backend) (req : Request) :
    (processReq b req).req.mIpAddresses =
      (if (b.lookup req.mHostName).status ≠ 0 then []
       else fmtOks b ((b.lookup req.mHostName).res.getD [])) := by
  by_cases h : (b.lookup req.mHostName).status ≠ 0
  · simp [processReq, h]
  · simp only [processReq, formatLoop_eq, if_neg h]
    split
    · simp
    · simp

theorem processReq_status_eq (b : Backend) (req : Request) :
    (processReq b req).req.mStatus =
      (if (b.lookup req.mHostName).status ≠ 0 then (b.lookup req.mHostName).status
       else if fmtOks b ((b.lookup req.mHostName).res.getD []) = [] ∧
              fmtErrors b ((b.lookup req.mHostName).res.getD []) ≠ [] then
         (fmtErrors b ((b.lookup req.mHostName).res.getD [])).getLastD 0
       else 0) := by
  by_cases h : (b.lookup req.mHostName).status ≠ 0
  · simp [processReq, h]
  · rw [if_neg h]
    have h0 : (b.lookup req.mHostName).status = 0 := by push_neg at h; exact h
    by_cases hc : fmtOks b ((b.lookup req.mHostName).res.getD []) = [] ∧
        fmtErrors b ((b.lookup req.mHostName).res.getD []) ≠ []
    · rw [if_pos hc]
      have hcond : (formatLoop b ((b.lookup req.mHostName).res.getD [])).1 = [] ∧
          (formatLoop b ((b.lookup req.mHostName).res.getD [])).2 ≠ 0 := by
        rw [formatLoop_eq]
        exact ⟨hc.1, (fmtErrors_getLastD_iff b _).mpr hc.2⟩
      simp only [processReq, if_neg h, if_pos hcond]
      simp [formatLoop_eq]
    · rw [if_neg hc]
      have hcond : ¬ ((formatLoop b ((b.lookup req.mHostName).res.getD [])).1 = [] ∧
          (formatLoop b ((b.lookup req.mHostName).res.getD [])).2 ≠ 0) := by
        rw [formatLoop_eq]
        intro hcon
        exact hc ⟨hcon.1, (fmtErrors_getLastD_iff b _).mp hcon.2⟩
      simp only [processReq, if_neg h, if_neg hcond]
      simpa using h0

theorem processReq_msg_eq (b : Backend) (req : Request) :
    (processReq b req).req.mStatusMsg =
      (if (b.lookup req.mHostName).status ≠ 0 then
        b.strerror (b.lookup req.mHostName).status
       else if fmtOks b ((b.lookup req.mHostName).res.getD []) = [] ∧
              fmtErrors b ((b.lookup req.mHostName).res.getD []) ≠ [] then
         b.strerror ((fmtErrors b ((b.lookup req.mHostName).res.getD [])).getLastD 0)
       else "") := by
  by_cases h : (b.lookup req.mHostName).status ≠ 0
  · simp [processReq, h]
  · rw [if_neg h]
    by_cases hc : fmtOks b ((b.lookup req.mHostName).res.getD []) = [] ∧
        fmtErrors b ((b.lookup req.mHostName).res.getD []) ≠ []
    · rw [if_pos hc]
      have hcond : (formatLoop b ((b.lookup req.mHostName).res.getD [])).1 = [] ∧
          (formatLoop b ((b.lookup req.mHostName).res.getD [])).2 ≠ 0 := by
        rw [formatLoop_eq]
        exact ⟨hc.1, (fmtErrors_getLastD_iff b _).mpr hc.2⟩
      simp only [processReq, if_neg h, if_pos hcond]
      simp [formatLoop_eq]
    · rw [if_neg hc]
      have hcond : ¬ ((formatLoop b ((b.lookup req.mHostName).res.getD [])).1 = [] ∧
          (formatLoop b ((b.lookup req.mHostName).res.getD [])).2 ≠ 0) := by
        rw [formatLoop_eq]
        intro hcon
        exact hc ⟨hcon.1, (fmtErrors_getLastD_iff b _).mp hcon.2⟩
      simp only [processReq, if_neg h, if_neg hcond]

theorem processReq_freed_eq (b : Backend) (req : Request) :
    (processReq b req).freed =
      (if (b.lookup req.mHostName).status ≠ 0 then
        (b.lookup req.mHostName).res.isSome
       else true) := by
  by_cases h : (b.lookup req.mHostName).status ≠ 0
  · simp [processReq, h]
  · simp only [processReq, formatLoop_eq, if_neg h]
    split
    · simp
    · simp

/-! Lemmas about the facade transition system. -/

theorem runActions_append (s : ResolverState) (t1 t2 : List Action) :
    runActions s (t1 ++ t2) = runActions (runActions s t1) t2 := by
  simp [runActions, List.foldl_append]

theorem invQ_workerStep (s : ResolverState) (h : InvQ s) :
    InvQ (workerStep s).state := by
  obtain ⟨h1, h2⟩ := h
  constructor
  · simp only [workerStep]
    rw [h1]
    simp [List.append_assoc]
  · intro hne
    simp only [workerStep] at hne ⊢
    by_cases hd : s.doneQueue.isEmpty
    · by_cases hp : s.pending.isEmpty
      · rw [List.isEmpty_iff] at hd hp
        rw [hd, hp] at hne
        simp at hne
      · simp [hd, hp]
    · have hd' : s.doneQueue ≠ [] := by
        intro hcon
        rw [hcon] at hd
        simp at hd
      simp only [hd, Bool.and_false]
      simpa using h2 hd'

theorem inv_step (s : ResolverState) (a : Action) (h : Inv s) :
    Inv (step s a) := by
  obtain ⟨⟨h1, h2⟩, h3⟩ := h
  cases a with
  | start =>
      by_cases hr : s.runFlag
      · simp only [step, startOp, if_pos hr]
        exact ⟨⟨h1, h2⟩, h3⟩
      · simp only [step, startOp, if_neg hr]
        exact ⟨⟨h1, h2⟩, rfl⟩
  | enqueue id =>
      by_cases hr : s.runFlag
      · simp only [step, enqueueOp, if_pos hr]
        refine ⟨⟨?_, h2⟩, h3⟩
        rw [h1]
        simp [List.append_assoc]
      · simp only [step, enqueueOp, if_neg hr]
        exact ⟨⟨h1, h2⟩, h3⟩
  | worker =>
      simp only [step]
      by_cases hb : s.runFlag && s.pending.isEmpty
      · rw [if_pos hb]
        exact ⟨⟨h1, h2⟩, h3⟩
      · rw [if_neg hb]
        exact ⟨invQ_workerStep s ⟨h1, h2⟩, h3⟩
  | timeout =>
      simp only [step]
      by_cases hreg : s.registered
      · rw [if_pos hreg]
        by_cases hz : s.doneCount = 0
        · simp only [timeoutOp, if_pos hz]
          exact ⟨⟨h1, h2⟩, h3⟩
        · simp only [timeoutOp, if_neg hz]
          refine ⟨⟨?_, by simp⟩, h3⟩
          rw [h1]
          simp [List.append_assoc]
      · rw [if_neg hreg]
        exact ⟨⟨h1, h2⟩, h3⟩
  | shutdown =>
      simp only [step, shutdownOp]
      by_cases hr : s.runFlag
      · rw [if_pos hr]
        have hq : InvQ (workerStep { s with runFlag := false }).state :=
          invQ_workerStep _ ⟨h1, h2⟩
        refine ⟨⟨hq.1, hq.2⟩, ?_⟩
        simp [workerStep]
      · rw [if_neg hr]
        exact ⟨⟨h1, h2⟩, h3⟩

theorem inv_runActions (s : ResolverState) (as : List Action) (h : Inv s) :
    Inv (runActions s as) := by
  induction as generalizing s with
  | nil => simpa [runActions] using h
  | cons a as ih =>
      have : runActions s (a :: as) = runActions (step s a) as := by
        simp [runActions]
      rw [this]
      exact ih (step s a) (inv_step s a h)

theorem inv_init : Inv initState := by
  refine ⟨⟨rfl, ?_⟩, rfl⟩
  intro h
  simp [initState] at h

theorem delivered_step_mono (s : ResolverState) (a : Action) :
    ∃ l : List Nat, (step s a).delivered = s.delivered ++ l := by
  cases a with
  | start =>
      by_cases hr : s.runFlag
      · exact ⟨[], by simp [step, startOp, hr]⟩
      · exact ⟨[], by simp [step, startOp, hr]⟩
  | enqueue id =>
      by_cases hr : s.runFlag
      · exact ⟨[], by simp [step, enqueueOp, hr]⟩
      · exact ⟨[], by simp [step, enqueueOp, hr]⟩
  | worker =>
      by_cases hb : s.runFlag && s.pending.isEmpty
      · exact ⟨[], by simp [step, hb]⟩
      · exact ⟨[], by simp [step, hb, workerStep]⟩
  | timeout =>
      by_cases hreg : s.registered
      · by_cases hz : s.doneCount = 0
        · exact ⟨[], by simp [step, hreg, timeoutOp, hz]⟩
        · exact ⟨s.doneQueue, by simp [step, hreg, timeoutOp, hz]⟩
      · exact ⟨[], by simp [step, hreg]⟩
  | shutdown =>
      by_cases hr : s.runFlag
      · exact ⟨[], by simp [step, shutdownOp, hr, workerStep]⟩
      · exact ⟨[], by simp [step, shutdownOp, hr]⟩

theorem delivered_run_mono (s : ResolverState) (as : List Action) :
    ∃ l : List Nat, (runActions s as).delivered = s.delivered ++ l := by
  induction as generalizing s with
  | nil => exact ⟨[], by simp [runActions]⟩
  | cons a as ih =>
      have hstep : runActions s (a :: as) = runActions (step s a) as := by
        simp [runActions]
      obtain ⟨l1, hl1⟩ := delivered_step_mono s a
      obtain ⟨l2, hl2⟩ := ih (step s a)
      exact ⟨l1 ++ l2, by rw [hstep, hl2, hl1, List.append_assoc]⟩

theorem timeout_noop_unregistered (s : ResolverState) (h : s.registered = false) :
    ∀ acts : List Action, (∀ a ∈ acts, a = Action.timeout) →
      runActions s acts = s := by
  intro acts
  induction acts with
  | nil => intro _; simp [runActions]
  | cons a as ih =>
      intro hall
      have ha : a = Action.timeout := hall a (by simp)
      have hstep : step s a = s := by
        rw [ha]
        simp [step, h]
      have : runActions s (a :: as) = runActions (step s a) as := by
        simp [runActions]
      rw [this, hstep]
      exact ih (fun x hx => hall x (by simp [hx]))

theorem drain_delivers (s : ResolverState) (hq : InvQ s)
    (hreg : s.registered = true) :
    (runActions s [Action.worker, Action.timeout]).delivered = s.accepted ∧
    (runActions s [Action.worker, Action.timeout]).accepted = s.accepted := by
  obtain ⟨h1, h2⟩ := hq
  have hrun2 : runActions s [Action.worker, Action.timeout] =
      step (step s Action.worker) Action.timeout := by
    simp [runActions]
  by_cases hb : s.runFlag && s.pending.isEmpty
  · -- the worker stays blocked in Wait; the pending queue is empty
    have hp : s.pending = [] := by
      have := (Bool.and_eq_true _ _).mp hb
      exact List.isEmpty_iff.mp this.2
    have hw : step s Action.worker = s := by simp [step, hb]
    rw [hrun2, hw]
    by_cases hz : s.doneCount = 0
    · have hd : s.doneQueue = [] := by
        by_contra hcon
        exact (h2 hcon) hz
      have ht : step s Action.timeout = s := by
        simp [step, hreg, timeoutOp, hz]
      rw [ht]
      constructor
      · rw [h1, hd, hp]
        simp
      · rfl
    · have ht : step s Action.timeout =
          { s with
            doneQueue := [],
            doneCount := 0,
            delivered := s.delivered ++ s.doneQueue } := by
        simp [step, hreg, timeoutOp, hz]
      rw [ht]
      constructor
      · rw [h1, hp]
        simp
      · rfl
  · -- the worker performs one iteration on the whole pending batch
    have hw : step s Action.worker = (workerStep s).state := by
      simp [step, hb]
    have hcnt : (workerStep s).state.doneCount ≠ 0 ∨
        (workerStep s).state.doneQueue = [] := by
      by_cases hd : s.doneQueue.isEmpty
      · by_cases hp : s.pending.isEmpty
        · right
          rw [List.isEmpty_iff] at hd hp
          simp [workerStep, hd, hp]
        · left
          simp [workerStep, hd, hp]
      · left
        have hd' : s.doneQueue ≠ [] := by
          intro hcon
          rw [hcon] at hd
          simp at hd
        simp only [workerStep, hd, Bool.and_false]
        simpa using h2 hd'
    have hreg1 : (workerStep s).state.registered = true := by
      simpa [workerStep] using hreg
    rw [hrun2, hw]
    rcases hcnt with hnz | hdq
    · have ht : step (workerStep s).state Action.timeout =
          { (workerStep s).state with
            doneQueue := [],
            doneCount := 0,
            delivered := (workerStep s).state.delivered ++
              (workerStep s).state.doneQueue } := by
        simp [step, hreg1, timeoutOp, hnz]
      rw [ht]
      constructor
      · show (workerStep s).state.delivered ++ (workerStep s).state.doneQueue =
          s.accepted
        rw [h1]
        simp [workerStep, List.append_assoc]
      · show (workerStep s).state.accepted = s.accepted
        simp [workerStep]
    · -- the spliced done queue is empty: both queues were empty already
      have hdq2 : s.doneQueue ++ s.pending = [] := by
        simpa [workerStep] using hdq
      have ht : step (workerStep s).state Action.timeout =
            (workerStep s).state ∨
          step (workerStep s).state Action.timeout =
            { (workerStep s).state with
              doneQueue := [],
              doneCount := 0,
              delivered := (workerStep s).state.delivered ++
                (workerStep s).state.doneQueue } := by
        by_cases hz : (workerStep s).state.doneCount = 0
        · left
          simp [step, hreg1, timeoutOp, hz]
        · right
          simp [step, hreg1, timeoutOp, hz]
      have hacc : s.accepted = s.delivered := by
        rw [h1]
        have := List.append_eq_nil.mp hdq2
        rw [this.1, this.2]
        simp
      rcases ht with ht | ht
      · rw [ht]
        constructor
        · show (workerStep s).state.delivered = s.accepted
          rw [hacc]
          simp [workerStep]
        · show (workerStep s).state.accepted = s.accepted
          simp [workerStep]
      · rw [ht]
        constructor
        · show (workerStep s).state.delivered ++ (workerStep s).state.doneQueue =
            s.accepted
          rw [hdq]
          rw [hacc]
          simp [workerStep]
        · show (workerStep s).state.accepted = s.accepted
          simp [workerStep]

theorem sublist_pair (A B : Nat) (l1 l2 l3 : List Nat) :
    List.Sublist [A, B] (l1 ++ A :: l2 ++ B :: l3) := by
  induction l1 with
  | nil =>
      simp only [List.nil_append]
      exact List.Sublist.cons₂ A (List.singleton_sublist.mpr (by simp))
  | cons x xs ih => exact List.Sublist.cons x ih

theorem isEmpty_false_of_ne_nil {α : Type} (l : List α) (h : l ≠ []) :
    l.isEmpty = false := by
  cases l with
  | nil => exact absurd rfl h
  | cons x xs => rfl

/-! Claim theorems. -/

/-- C1: every Request accepted by Enqueue while the facade is running is
eventually completed exactly once: once the worker and the dispatcher
each take one further turn after the trace, its Done callback has fired
exactly once, and at no earlier point of the trace had any Done callback
fired twice for the same Request. -/
theorem enqueue_done_exactly_once (t : List Action)
    (hrun : (runActions initState t).runFlag = true)
    (hnd : (runActions initState t).accepted.Nodup) :
    (∀ id : Nat,
      List.count id (runActions initState
          (t ++ [Action.worker, Action.timeout])).delivered =
        (if id ∈ (runActions initState t).accepted then 1 else 0)) ∧
    (∀ t1 t2 : List Action,
      t ++ [Action.worker, Action.timeout] = t1 ++ t2 →
      ∀ id : Nat,
        List.count id (runActions initState t1).delivered ≤ 1) := by
  have hInv : Inv (runActions initState t) :=
    inv_runActions initState t inv_init
  have hreg : (runActions initState t).registered = true := by
    rw [hInv.2, hrun]
  have hdr := drain_delivers (runActions initState t) hInv.1 hreg
  have hfull : runActions initState (t ++ [Action.worker, Action.timeout]) =
      runActions (runActions initState t) [Action.worker, Action.timeout] :=
    runActions_append initState t _
  have hcount : ∀ id : Nat,
      List.count id (runActions initState
          (t ++ [Action.worker, Action.timeout])).delivered =
        (if id ∈ (runActions initState t).accepted then 1 else 0) := by
    intro id
    rw [hfull, hdr.1]
    exact List.count_eq_of_nodup hnd
  refine ⟨hcount, ?_⟩
  intro t1 t2 hsplit id
  have h2 : runActions initState (t ++ [Action.worker, Action.timeout]) =
      runActions (runActions initState t1) t2 := by
    rw [hsplit, runActions_append]
  obtain ⟨l, hl⟩ := delivered_run_mono (runActions initState t1) t2
  have hle : List.count id (runActions initState
      (t ++ [Action.worker, Action.timeout])).delivered ≤ 1 := by
    rw [hcount id]
    split <;> simp
  rw [h2, hl, List.count_append] at hle
  omega

/-- Witness for the C1 theorem: a trace that starts the facade and
enqueues request 5; after the worker and dispatcher turns, request 5 has
been completed exactly once. -/
theorem enqueue_done_exactly_once_witness :
    List.count 5 (runActions initState
        ([Action.start, Action.enqueue 5] ++
          [Action.worker, Action.timeout])).delivered = 1 := by
  have h := enqueue_done_exactly_once [Action.start, Action.enqueue 5]
    (by decide) (by decide)
  have h5 := h.1 5
  have hmem : (5 : Nat) ∈
      (runActions initState [Action.start, Action.enqueue 5]).accepted := by
    decide
  rw [if_pos hmem] at h5
  exact h5

/-- C2 counterexample: a request (id 7) sits in the pending queue at the
moment Shutdown flips the run flag; the joined worker nevertheless
splices it into a final batch and resolves it before exiting, so the
claim that such a request is not resolved by the worker is false. -/
theorem shutdown_claim_counterexample :
    (shutdownOp { initState with
      runFlag := true, registered := true,
      pending := [7], accepted := [7] }).resolved = [7] ∧
    (shutdownOp { initState with
      runFlag := true, registered := true,
      pending := [7], accepted := [7] }).pending = [] := by
  decide

/-- C2 (amended): at the moment Shutdown flips the running flag to false,
Requests still sitting in the pending queue ARE spliced into a final
worker batch and resolved before the worker exits (the worker exits only
once the pending queue is empty); they are moved onto the done queue, no
completion callback fires during Shutdown itself, and once Shutdown has
unregistered the timeout handler, further timeout ticks deliver no
callbacks either. -/
theorem shutdown_drains_pending (s : ResolverState) (h : s.runFlag = true) :
    (shutdownOp s).resolved = s.resolved ++ s.pending ∧
    (shutdownOp s).pending = [] ∧
    (shutdownOp s).doneQueue = s.doneQueue ++ s.pending ∧
    (shutdownOp s).delivered = s.delivered ∧
    (shutdownOp s).registered = false ∧
    (shutdownOp s).runFlag = false ∧
    (∀ acts : List Action, (∀ a ∈ acts, a = Action.timeout) →
      (runActions (shutdownOp s) acts).delivered = s.delivered) := by
  have hsd : shutdownOp s =
      { (workerStep { s with runFlag := false }).state with
        registered := false } := by
    simp [shutdownOp, h]
  have hreg0 : (shutdownOp s).registered = false := by rw [hsd]
  have hdel : (shutdownOp s).delivered = s.delivered := by
    rw [hsd]
    simp [workerStep]
  refine ⟨by rw [hsd]; simp [workerStep], by rw [hsd]; simp [workerStep],
    by rw [hsd]; simp [workerStep], hdel, hreg0,
    by rw [hsd]; simp [workerStep], ?_⟩
  intro acts hall
  rw [timeout_noop_unregistered (shutdownOp s) hreg0 acts hall, hdel]

/-- Witness for the C2 amended theorem: a running facade with request 4
pending; Shutdown resolves it. -/
theorem shutdown_drains_pending_witness :
    (shutdownOp { initState with
      runFlag := true, registered := true,
      pending := [4], accepted := [4] }).resolved = [] ++ [4] :=
  (shutdown_drains_pending _ rfl).1

/-- C3: on successful name lookup, every successfully formatted address
is kept; when no address was produced and at least one formatting error
was recorded, the status and message are set from the last recorded
formatting error; otherwise the status stays 0 (and the message stays
cleared) even if some entries failed to format. -/
theorem process_format_policy (b : Backend) (req : Request)
    (h : (b.lookup req.mHostName).status = 0) :
    (processReq b req).req.mIpAddresses =
      fmtOks b ((b.lookup req.mHostName).res.getD []) ∧
    (fmtOks b ((b.lookup req.mHostName).res.getD []) = [] ∧
        fmtErrors b ((b.lookup req.mHostName).res.getD []) ≠ [] →
      (processReq b req).req.mStatus =
        (fmtErrors b ((b.lookup req.mHostName).res.getD [])).getLastD 0 ∧
      (processReq b req).req.mStatusMsg =
        b.strerror ((fmtErrors b ((b.lookup req.mHostName).res.getD [])).getLastD 0)) ∧
    (fmtOks b ((b.lookup req.mHostName).res.getD []) ≠ [] ∨
        fmtErrors b ((b.lookup req.mHostName).res.getD []) = [] →
      (processReq b req).req.mStatus = 0 ∧
      (processReq b req).req.mStatusMsg = "") := by
  have hne : ¬ (b.lookup req.mHostName).status ≠ 0 := by simp [h]
  refine ⟨?_, ?_, ?_⟩
  · rw [processReq_addr_eq, if_neg hne]
  · intro hc
    constructor
    · rw [processReq_status_eq, if_neg hne, if_pos hc]
    · rw [processReq_msg_eq, if_neg hne, if_pos hc]
  · intro hc
    have hc' : ¬ (fmtOks b ((b.lookup req.mHostName).res.getD []) = [] ∧
        fmtErrors b ((b.lookup req.mHostName).res.getD []) ≠ []) := by
      rcases hc with hc | hc
      · exact fun hcon => hc hcon.1
      · exact fun hcon => hcon.2 hc
    constructor
    · rw [processReq_status_eq, if_neg hne, if_neg hc']
    · rw [processReq_msg_eq, if_neg hne, if_neg hc']

/-- Witness for the C3 theorem: a backend whose single IPv4 entry fails
to format, so the request ends with the last formatting error. -/
theorem process_format_policy_witness :
    (processReq fmtFailBackend reqX).req.mStatus =
      (fmtErrors fmtFailBackend
        ((fmtFailBackend.lookup reqX.mHostName).res.getD [])).getLastD 0 :=
  ((process_format_policy fmtFailBackend reqX (by decide)).2.1 (by decide)).1

/-- C4: after processing a non-empty batch, the worker increments the
done counter and wakes the net manager exactly when the done queue was
empty immediately before the batch was spliced into it. -/
theorem worker_wakeup_iff (s : ResolverState) (h : s.pending ≠ []) :
    ((workerStep s).wakeup = true ↔ s.doneQueue = []) ∧
    (workerStep s).state.doneQueue = s.doneQueue ++ s.pending ∧
    (workerStep s).state.doneCount =
      (if s.doneQueue = [] then s.doneCount + 1 else s.doneCount) := by
  have hp : s.pending.isEmpty = false := isEmpty_false_of_ne_nil s.pending h
  refine ⟨⟨?_, ?_⟩, ?_, ?_⟩
  · intro hw
    simp only [workerStep, hp, Bool.not_false, Bool.true_and] at hw
    exact List.isEmpty_iff.mp hw
  · intro hd
    simp [workerStep, hp, hd]
  · simp [workerStep]
  · by_cases hd : s.doneQueue = []
    · simp [workerStep, hp, hd]
    · have hdf : s.doneQueue.isEmpty = false :=
        isEmpty_false_of_ne_nil s.doneQueue hd
      simp [workerStep, hp, hd, hdf]

/-- Witness for the C4 theorem: one pending request, empty done queue,
so the worker wakes the net manager. -/
theorem worker_wakeup_iff_witness :
    (workerStep { initState with
      runFlag := true, registered := true,
      pending := [3], accepted := [3] }).wakeup = true :=
  (worker_wakeup_iff _ (by decide)).1.mpr rfl

/-- C5: Enqueue while not running returns -EINVAL, changes nothing and
signals nobody; Enqueue while running appends the request to the back of
the pending queue, returns 0 (success), and signals the worker condition
exactly when the pending queue was empty immediately before the append. -/
theorem enqueue_spec (s : ResolverState) (id : Nat) :
    (enqueueOp s id).ret = (if s.runFlag then 0 else -EINVAL) ∧
    (enqueueOp s id).state =
      (if s.runFlag then
        { s with pending := s.pending ++ [id], accepted := s.accepted ++ [id] }
       else s) ∧
    (enqueueOp s id).signaled = (s.runFlag && s.pending.isEmpty) := by
  by_cases hr : s.runFlag
  · simp [enqueueOp, hr]
  · simp [enqueueOp, hr]

/-- C6: when the backend name lookup fails, Process records the backend
error code and its description on the request, leaves the address list
empty, frees the result handle exactly when one was returned, and does
nothing else to the request. -/
theorem process_lookup_failure (b : Backend) (req : Request)
    (h : (b.lookup req.mHostName).status ≠ 0) :
    (processReq b req).req.mStatus = (b.lookup req.mHostName).status ∧
    (processReq b req).req.mStatusMsg =
      b.strerror (b.lookup req.mHostName).status ∧
    (processReq b req).req.mIpAddresses = [] ∧
    (processReq b req).freed = (b.lookup req.mHostName).res.isSome := by
  refine ⟨?_, ?_, ?_, ?_⟩
  · rw [processReq_status_eq, if_pos h]
  · rw [processReq_msg_eq, if_pos h]
  · rw [processReq_addr_eq, if_pos h]
  · rw [processReq_freed_eq, if_pos h]

/-- Witness for the C6 theorem: a backend whose lookup always fails with
code -2 and a null handle. -/
theorem process_lookup_failure_witness :
    (processReq failBackend reqX).req.mIpAddresses = [] :=
  (process_lookup_failure failBackend reqX (by decide)).2.2.1

/-- C7: for two requests A and B spliced into the same worker batch with
A ahead of B, the worker resolves the batch in order (so A is resolved
before B), and the next dispatcher tick delivers the done queue in that
same order, so the completion of A fires no later than that of B. -/
theorem batch_order_preserved (s : ResolverState) (A B : Nat)
    (l1 l2 l3 : List Nat)
    (hp : s.pending = l1 ++ A :: l2 ++ B :: l3)
    (hreg : s.registered = true)
    (hcnt : s.doneQueue ≠ [] → s.doneCount ≠ 0) :
    (workerStep s).state.resolved = s.resolved ++ s.pending ∧
    List.Sublist [A, B] (workerStep s).state.resolved ∧
    (runActions s [Action.worker, Action.timeout]).delivered =
      s.delivered ++ s.doneQueue ++ s.pending ∧
    List.Sublist [A, B]
      (runActions s [Action.worker, Action.timeout]).delivered := by
  have hpne : s.pending ≠ [] := by
    rw [hp]
    intro hcon
    have := congrArg List.length hcon
    simp [List.length_append] at this
  have hpemp : s.pending.isEmpty = false := isEmpty_false_of_ne_nil s.pending hpne
  have hw : step s Action.worker = (workerStep s).state := by
    simp [step, hpemp]
  have hres : (workerStep s).state.resolved = s.resolved ++ s.pending := by
    simp [workerStep]
  have hsub1 : List.Sublist [A, B] (workerStep s).state.resolved := by
    rw [hres, hp]
    exact (sublist_pair A B l1 l2 l3).trans (List.sublist_append_right _ _)
  have hcnt1 : (workerStep s).state.doneCount ≠ 0 := by
    by_cases hd : s.doneQueue.isEmpty
    · simp [workerStep, hd, hpemp]
    · have hd' : s.doneQueue ≠ [] := by
        intro hcon
        rw [hcon] at hd
        simp at hd
      simp only [workerStep, hd, Bool.and_false]
      simpa using hcnt hd'
  have hreg1 : (workerStep s).state.registered = true := by
    simpa [workerStep] using hreg
  have ht : step (workerStep s).state Action.timeout =
      { (workerStep s).state with
        doneQueue := [],
        doneCount := 0,
        delivered := (workerStep s).state.delivered ++
          (workerStep s).state.doneQueue } := by
    simp [step, hreg1, timeoutOp, hcnt1]
  have hrun2 : runActions s [Action.worker, Action.timeout] =
      step (step s Action.worker) Action.timeout := by
    simp [runActions]
  have hdel : (runActions s [Action.worker, Action.timeout]).delivered =
      s.delivered ++ s.doneQueue ++ s.pending := by
    rw [hrun2, hw, ht]
    simp [workerStep, List.append_assoc]
  refine ⟨hres, hsub1, hdel, ?_⟩
  rw [hdel, hp]
  exact (sublist_pair A B l1 l2 l3).trans (List.sublist_append_right _ _)

/-- Witness for the C7 theorem: requests 1 and 2 in one batch are
delivered with 1 no later than 2. -/
theorem batch_order_preserved_witness :
    List.Sublist [1, 2] (runActions { initState with
        runFlag := true, registered := true,
        pending := [1, 2], accepted := [1, 2] }
      [Action.worker, Action.timeout]).delivered :=
  (batch_order_preserved _ 1 2 [] [] [] rfl rfl
    (fun hcon => absurd rfl hcon)).2.2.2

/-- C8: Start fails with -EINVAL and changes nothing exactly when called
while running; otherwise it transitions to Running (registering the
timeout handler) and returns 0; and Start called after a completed
Shutdown always returns 0. -/
theorem start_spec (s : ResolverState) :
    (startOp s).2 = (if s.runFlag then -EINVAL else 0) ∧
    (startOp s).1 =
      (if s.runFlag then s
       else { s with runFlag := true, registered := true }) ∧
    (startOp (shutdownOp s)).2 = 0 := by
  by_cases hr : s.runFlag
  · refine ⟨by simp [startOp, hr], by simp [startOp, hr], ?_⟩
    have hoff : (shutdownOp s).runFlag = false := by
      simp [shutdownOp, hr, workerStep]
    simp [startOp, hoff]
  · have hb : s.runFlag = false := by simpa using hr
    refine ⟨by simp [startOp, hb], by simp [startOp, hb], ?_⟩
    have hoff : (shutdownOp s).runFlag = false := by
      simp [shutdownOp, hb]
    simp [startOp, hoff]

/-- C9: after Process returns, a nonzero status implies the address list
is empty; equivalently a non-empty address list forces status 0; and the
output address list never depends on stale addresses held by the request
beforehand (the list is cleared unconditionally). -/
theorem status_addresses_invariant (b : Backend) (req : Request) :
    ((processReq b req).req.mStatus ≠ 0 →
      (processReq b req).req.mIpAddresses = []) ∧
    ((processReq b req).req.mIpAddresses ≠ [] →
      (processReq b req).req.mStatus = 0) ∧
    (∀ stale : List String,
      (processReq b { req with mIpAddresses := stale }).req.mIpAddresses =
        (processReq b req).req.mIpAddresses) := by
  have key : (processReq b req).req.mStatus ≠ 0 →
      (processReq b req).req.mIpAddresses = [] := by
    intro hs
    rw [processReq_addr_eq]
    by_cases h : (b.lookup req.mHostName).status ≠ 0
    · rw [if_pos h]
    · rw [if_neg h]
      rw [processReq_status_eq, if_neg h] at hs
      by_cases hc : fmtOks b ((b.lookup req.mHostName).res.getD []) = [] ∧
          fmtErrors b ((b.lookup req.mHostName).res.getD []) ≠ []
      · exact hc.1
      · rw [if_neg hc] at hs
        exact absurd rfl hs
  refine ⟨key, ?_, ?_⟩
  · intro ha
    by_contra hs
    exact ha (key hs)
  · intro stale
    rw [processReq_addr_eq, processReq_addr_eq]

/-- Witness for the C9 theorem: stale addresses on the request do not
survive Process. -/
theorem status_addresses_invariant_witness :
    (processReq failBackend
        { reqX with mIpAddresses := ["10.0.0.1"] }).req.mIpAddresses =
      (processReq failBackend reqX).req.mIpAddresses :=
  (status_addresses_invariant failBackend reqX).2.2 ["10.0.0.1"]

/-- C10: the buffer size passed to getnameinfo and the index of the
terminating NUL write are INET6_ADDRSTRLEN for both address families,
and that index is strictly inside the name buffer, whose declared size is
INET6_ADDRSTRLEN + 1 bytes. -/
theorem name_buf_bounds (family : Nat) :
    theSize family = INET6_ADDRSTRLEN ∧
    theSize family < nameBufSize ∧
    nameBufSize = INET6_ADDRSTRLEN + 1 := by
  refine ⟨?_, ?_, by decide⟩
  · unfold theSize
    split <;> rfl
  · unfold theSize
    split <;> decide

end Resolver
